import Mathlib

/-!
Shallow embedding of `pkg/healthcheck/handler.go`: a health-aggregation
service that folds per-component status events into a single overall
status and exposes it over HTTP.

Modelling conventions:
- Go `Status` is an `int`; we model it as `Int` with the four named
  constants produced by `iota` (`Unavailable = 0`, `Ready = 1`,
  `Broken = 2`, `Fail = 3`).
- Go `Component` is a `uint32`; we model it as `Nat` (no arithmetic is
  performed on components, only equality tests).
- The atomic cell `state int32` stores the result of Go's `int32(state)`
  conversion; `int32wrap` models that conversion.
- Go maps are modelled as association lists; reading a missing key yields
  the zero value (`Unavailable` for `Status`, `0` for `int`), exactly as
  Go map indexing does.
- The event channel is modelled as an optional queue; the `monitor` loop
  is modelled as a fold of the engine's per-event step over the list of
  events received from the channel.
-/

namespace Healthcheck

/-- Go conversion `int32(x)`: wrap an integer into the signed 32-bit
range, as `atomic.StoreInt32(&hc.state, int32(state))` does in `Set`. -/
def int32wrap (x : Int) : Int := (x + 2 ^ 31) % 2 ^ 32 - 2 ^ 31

/-- Predicate that an integer fits in the signed 32-bit range. -/
def int32range (x : Int) : Prop := -(2 ^ 31) ≤ x ∧ x < 2 ^ 31

instance (x : Int) : Decidable (int32range x) :=
  inferInstanceAs (Decidable (-(2 ^ 31) ≤ x ∧ x < 2 ^ 31))

/-- Status represents the state of the service (Go: `type Status int`). -/
abbrev Status := Int

/-- Unavailable indicates the service is not able to handle requests. -/
def Unavailable : Status := 0

/-- Ready indicates the service is ready to handle requests. -/
def Ready : Status := 1

/-- Broken indicates that the healthcheck itself is broken, not serving HTTP. -/
def Broken : Status := 2

/-- Fail just indicates a failure. -/
def Fail : Status := 3

/-- String rendering of a status (Go: `func (s Status) String() string`);
the `switch` has cases for `Unavailable`, `Ready`, `Broken` and a
`default` arm returning `"unknown"`. -/
def statusString (s : Status) : String :=
  if s = Unavailable then "unavailable"
  else if s = Ready then "ready"
  else if s = Broken then "broken"
  else "unknown"

/-- Component value is designated for all the components under
healthcheck (Go: `type Component uint32`). -/
abbrev Component := Nat

/-- Default is the uninitialized value. -/
def Default : Component := 0

/-- Init is the initialization phase. -/
def Init : Component := 1

/-- Storage availability. -/
def Storage : Component := 2

/-- ArchiveStorage availability. -/
def ArchiveStorage : Component := 3

/-- SamplingStorage is SamplingStrategyStorage. -/
def SamplingStorage : Component := 4

/-- ComponentStatus is a message coming from each event of the components. -/
structure ComponentStatus where
  comp : Component
  stat : Status
deriving DecidableEq

/-- The per-component status table `comstat map[Component]Status`,
modelled as an association list. -/
abbrev ComponentStatusTable := List (Component × Status)

/-- Reading a Go map: the last-written binding for the key, if any. -/
def tableLookup : ComponentStatusTable → Component → Option Status
  | [], _ => none
  | (c0, s0) :: t, c => if c = c0 then some s0 else tableLookup t c

/-- Go map indexing `hc.comstat[c]`: a missing key yields the zero value
of `Status`, which is `Unavailable`. -/
def tableLookupZero (t : ComponentStatusTable) (c : Component) : Status :=
  (tableLookup t c).getD Unavailable

/-- Go map assignment `hc.comstat[msg.comp] = msg.stat`: replace the
binding if the key is present, otherwise add it. -/
def tableUpsert : ComponentStatusTable → Component → Status → ComponentStatusTable
  | [], c, s => [(c, s)]
  | (c0, s0) :: t, c, s =>
    if c = c0 then (c, s) :: t else (c0, s0) :: tableUpsert t c s

/-- The `mapping map[Status]int` literal built in `New`: only
`Unavailable` and `Ready` have entries. -/
def defaultMapping : List (Status × Nat) :=
  [(Unavailable, 503), (Ready, 204)]

/-- Go map indexing `hc.mapping[s]`: a missing key yields the zero value
of `int`, which is `0`. -/
def mapLookupZero : List (Status × Nat) → Status → Nat
  | [], _ => 0
  | (k, v) :: t, s => if s = k then v else mapLookupZero t s

/-- HealthCheck provides an HTTP endpoint that returns the health status
of the service.  The fields track the Go struct: the atomic `state`
cell, the HTTP status `mapping`, the per-component table `comstat`, the
`desired` component set, and the optional `receptor` channel (modelled
as an optional queue of pending events). -/
structure HealthCheck where
  state : Int
  mapping : List (Status × Nat)
  comstat : ComponentStatusTable
  desired : List Component
  receptor : Option (List ComponentStatus)
deriving DecidableEq

/-- New creates a HealthCheck with the specified initial state; the
functional options `SetDesired` and `SetReceptor` are modelled as the
`desired` and `receptor` arguments, and `comstat` starts empty. -/
def New (state : Status) (desired : List Component)
    (receptor : Option (List ComponentStatus)) : HealthCheck :=
  { state := int32wrap state
    mapping := defaultMapping
    comstat := []
    desired := desired
    receptor := receptor }

/-- Set a new health check status
(Go: `atomic.StoreInt32(&hc.state, int32(state))`). -/
def HealthCheck.Set (hc : HealthCheck) (state : Status) : HealthCheck :=
  { hc with state := int32wrap state }

/-- Get the current status of this health check
(Go: `Status(atomic.LoadInt32(&hc.state))`). -/
def HealthCheck.Get (hc : HealthCheck) : Status := hc.state

/-- The loop body of `checkComponent`: `ok := true; for _, c := range
hc.desired { if hc.comstat[c] != Ready { ok = false; break } }`. -/
def checkLoop (comstat : ComponentStatusTable) : List Component → Bool
  | [] => true
  | c :: rest =>
    if tableLookupZero comstat c ≠ Ready then false else checkLoop comstat rest

/-- All the goodies there?  Recompute the aggregate: if the loop left
`ok` true, `Set(Ready)`, else `Set(Unavailable)`. -/
def HealthCheck.checkComponent (hc : HealthCheck) : HealthCheck :=
  if checkLoop hc.comstat hc.desired then hc.Set Ready else hc.Set Unavailable

/-- One iteration of the `monitor` loop body for a received message:
upsert `hc.comstat[msg.comp] = msg.stat`, then `hc.checkComponent()`. -/
def HealthCheck.processEvent (hc : HealthCheck) (msg : ComponentStatus) : HealthCheck :=
  ({ hc with comstat := tableUpsert hc.comstat msg.comp msg.stat }).checkComponent

/-- Monitor the receptor's reports: fold the loop body over the list of
events received from the channel, in order. -/
def HealthCheck.monitor (hc : HealthCheck) (events : List ComponentStatus) : HealthCheck :=
  events.foldl HealthCheck.processEvent hc

/-- The probe handler body `w.WriteHeader(hc.mapping[hc.Get()])`: the
transport code written for the current overall status. -/
def httpProbeCode (hc : HealthCheck) : Nat :=
  mapLookupZero hc.mapping hc.Get

/-- Result of invoking the closure returned by `GetStatusReporter`: the
health check afterwards (its receptor queue may have grown) and whether
the warning `"No channel for component status report"` was logged. -/
structure ReporterResult where
  hcAfter : HealthCheck
  warned : Bool
deriving DecidableEq

/-- GetStatusReporter returns a closure bound to one component; invoking
it with a status sends a `ComponentStatus` on the receptor channel, or,
when `hc.receptor == nil`, logs a warning and returns immediately. -/
def HealthCheck.GetStatusReporter (hc : HealthCheck) (c : Component) :
    Status → ReporterResult := fun stat =>
  match hc.receptor with
  | none => { hcAfter := hc, warned := true }
  | some q =>
    { hcAfter := { hc with receptor := some (q ++ [{ comp := c, stat := stat }]) }
      warned := false }

/-- Repeated `Set` calls, in order (used to state linearizability of the
atomic cell). -/
def runSets (hc : HealthCheck) (states : List Status) : HealthCheck :=
  states.foldl HealthCheck.Set hc

/-- Spec-side aggregate, written from the specification's words: if
every desired component's current table entry equals `Ready` the overall
status is `Ready`, otherwise `Unavailable` (a desired component with no
entry yet is treated as not-Ready). -/
def specAggregate (desired : List Component) (t : ComponentStatusTable) : Status :=
  if ∀ c ∈ desired, tableLookup t c = some Ready then Ready else Unavailable

/-! ## Helper lemmas -/

/-- Wrapping is the identity on values already in the 32-bit range. -/
theorem int32wrap_of_range (x : Int) (h : int32range x) : int32wrap x = x := by
  unfold int32range at h
  unfold int32wrap
  omega

/-- Lookup after upsert: the upserted key maps to the new status, every
other key is unchanged. -/
theorem tableLookup_tableUpsert (t : ComponentStatusTable) (c c' : Component) (s : Status) :
    tableLookup (tableUpsert t c s) c' = if c' = c then some s else tableLookup t c' := by
  induction t with
  | nil => by_cases h : c' = c <;> simp [tableUpsert, tableLookup, h]
  | cons p t ih =>
    obtain ⟨c0, s0⟩ := p
    by_cases h0 : c = c0
    · subst h0
      by_cases h' : c' = c <;> simp [tableUpsert, tableLookup, h']
    · by_cases h' : c' = c0
      · subst h'
        have hne : ¬c' = c := fun h => h0 (h ▸ rfl)
        simp [tableUpsert, tableLookup, h0, hne]
      · simp [tableUpsert, tableLookup, h0, h', ih]

/-- The zero-default map read equals `Ready` exactly when the key is
bound to `Ready` (absence reads as `Unavailable`, which is not `Ready`). -/
theorem tableLookupZero_eq_ready_iff (t : ComponentStatusTable) (c : Component) :
    tableLookupZero t c = Ready ↔ tableLookup t c = some Ready := by
  unfold tableLookupZero
  cases h : tableLookup t c with
  | none => simp [Option.getD, Unavailable, Ready]
  | some s => simp [Option.getD, Ready]

/-- The `checkComponent` loop returns `true` exactly when every desired
component's current table entry equals `Ready`. -/
theorem checkLoop_eq_true_iff (t : ComponentStatusTable) (ds : List Component) :
    checkLoop t ds = true ↔ ∀ c ∈ ds, tableLookup t c = some Ready := by
  induction ds with
  | nil => simp [checkLoop]
  | cons c ds ih =>
    by_cases h : tableLookupZero t c = Ready
    · have hc : tableLookup t c = some Ready := (tableLookupZero_eq_ready_iff t c).mp h
      simp [checkLoop, h, ih, hc]
    · have hc : ¬tableLookup t c = some Ready :=
        fun hx => h ((tableLookupZero_eq_ready_iff t c).mpr hx)
      simp [checkLoop, h, hc]

/-- The loop result depends only on the table entries of the scanned
components. -/
theorem checkLoop_congr (ds : List Component) (t1 t2 : ComponentStatusTable)
    (h : ∀ c ∈ ds, tableLookup t1 c = tableLookup t2 c) :
    checkLoop t1 ds = checkLoop t2 ds := by
  induction ds with
  | nil => rfl
  | cons c ds ih =>
    have hz : tableLookupZero t1 c = tableLookupZero t2 c := by
      unfold tableLookupZero
      rw [h c (List.mem_cons_self c ds)]
    simp only [checkLoop, hz]
    by_cases hr : tableLookupZero t2 c ≠ Ready
    · simp [hr]
    · simp only [hr, if_neg, ite_false]
      exact ih fun c' hc' => h c' (List.mem_cons_of_mem c hc')

/-- Field bookkeeping for `Set`. -/
theorem set_fields (hc : HealthCheck) (s : Status) :
    (hc.Set s).state = int32wrap s ∧ (hc.Set s).comstat = hc.comstat ∧
    (hc.Set s).desired = hc.desired ∧ (hc.Set s).receptor = hc.receptor := by
  simp [HealthCheck.Set]

/-- The state written by `checkComponent` is decided by the loop. -/
theorem checkComponent_state (hc : HealthCheck) :
    hc.checkComponent.state =
      if checkLoop hc.comstat hc.desired then Ready else Unavailable := by
  unfold HealthCheck.checkComponent
  by_cases h : checkLoop hc.comstat hc.desired <;>
    simp [h, HealthCheck.Set, int32wrap, Ready, Unavailable]

/-- Field bookkeeping for `checkComponent`. -/
theorem checkComponent_fields (hc : HealthCheck) :
    hc.checkComponent.comstat = hc.comstat ∧
    hc.checkComponent.desired = hc.desired ∧
    hc.checkComponent.receptor = hc.receptor := by
  unfold HealthCheck.checkComponent
  by_cases h : checkLoop hc.comstat hc.desired <;> simp [h, HealthCheck.Set]

/-- The table after one engine step is the upsert of the event. -/
theorem processEvent_comstat (hc : HealthCheck) (msg : ComponentStatus) :
    (hc.processEvent msg).comstat = tableUpsert hc.comstat msg.comp msg.stat := by
  unfold HealthCheck.processEvent
  rw [(checkComponent_fields _).1]

/-- The desired set is untouched by an engine step. -/
theorem processEvent_desired (hc : HealthCheck) (msg : ComponentStatus) :
    (hc.processEvent msg).desired = hc.desired := by
  unfold HealthCheck.processEvent
  rw [(checkComponent_fields _).2.1]

/-- The state after one engine step is decided by the loop over the
upserted table. -/
theorem processEvent_state (hc : HealthCheck) (msg : ComponentStatus) :
    (hc.processEvent msg).state =
      if checkLoop (tableUpsert hc.comstat msg.comp msg.stat) hc.desired
      then Ready else Unavailable := by
  unfold HealthCheck.processEvent
  rw [checkComponent_state]

/-- Core agreement lemma: two runs of the engine from states sharing the
desired set, the same overall status, and tables agreeing on the desired
components, fed event streams that agree componentwise and agree on the
statuses of desired components, end with the same overall status. -/
theorem monitor_state_agree (d : List Component) {es1 es2 : List ComponentStatus}
    (h : List.Forall₂
      (fun e1 e2 => e1.comp = e2.comp ∧ (e1.comp ∈ d → e1.stat = e2.stat)) es1 es2) :
    ∀ (hc1 hc2 : HealthCheck), hc1.desired = d → hc2.desired = d →
      hc1.state = hc2.state →
      (∀ c ∈ d, tableLookup hc1.comstat c = tableLookup hc2.comstat c) →
      (hc1.monitor es1).state = (hc2.monitor es2).state := by
  induction h with
  | nil =>
    intro hc1 hc2 _ _ hst _
    simpa [HealthCheck.monitor] using hst
  | @cons e1 e2 l1 l2 hp _ ih =>
    intro hc1 hc2 hd1 hd2 _ htab
    simp only [HealthCheck.monitor, List.foldl_cons]
    have hupagree : ∀ c ∈ d,
        tableLookup (tableUpsert hc1.comstat e1.comp e1.stat) c =
        tableLookup (tableUpsert hc2.comstat e2.comp e2.stat) c := by
      intro c hcmem
      rw [tableLookup_tableUpsert, tableLookup_tableUpsert, ← hp.1]
      by_cases hce : c = e1.comp
      · subst hce
        rw [if_pos rfl, if_pos rfl, hp.2 hcmem]
      · rw [if_neg hce, if_neg hce]
        exact htab c hcmem
    have htab' : ∀ c ∈ d,
        tableLookup (hc1.processEvent e1).comstat c =
        tableLookup (hc2.processEvent e2).comstat c := by
      intro c hcmem
      rw [processEvent_comstat, processEvent_comstat]
      exact hupagree c hcmem
    have hst' : (hc1.processEvent e1).state = (hc2.processEvent e2).state := by
      rw [processEvent_state, processEvent_state, hd1, hd2,
        checkLoop_congr d _ _ hupagree]
    exact ih (hc1.processEvent e1) (hc2.processEvent e2)
      (by rw [processEvent_desired, hd1]) (by rw [processEvent_desired, hd2])
      hst' htab'

/-! ## Claim theorems -/

/-- C1: on each event the engine first upserts the table entry for the
event's component to the event's status, then recomputes the aggregate
by scanning the desired set: the overall status becomes `Ready` when
every desired component's current table entry equals `Ready`, and
`Unavailable` otherwise (`specAggregate` states the recomputation in the
specification's words). -/
theorem processEvent_upsert_then_recompute (hc : HealthCheck) (msg : ComponentStatus) :
    (hc.processEvent msg).comstat = tableUpsert hc.comstat msg.comp msg.stat ∧
    (hc.processEvent msg).state =
      specAggregate hc.desired (tableUpsert hc.comstat msg.comp msg.stat) := by
  refine ⟨processEvent_comstat hc msg, ?_⟩
  rw [processEvent_state]
  unfold specAggregate
  by_cases h : ∀ c ∈ hc.desired,
      tableLookup (tableUpsert hc.comstat msg.comp msg.stat) c = some Ready
  · rw [if_pos h, if_pos ((checkLoop_eq_true_iff _ _).mpr h)]
  · rw [if_neg h, if_neg (fun hx => h ((checkLoop_eq_true_iff _ _).mp hx))]

/-- C2 counterexample: the probe mapping built in `New` has no entry for
`Broken` (nor `Fail`), so the Go map read yields the zero value `0`,
which is not any configured transport code; in particular it is not the
claimed default of 503. -/
theorem broken_probe_code_is_zero :
    httpProbeCode ((New Unavailable [] none).Set Broken) = 0 ∧
    (∀ p ∈ defaultMapping, p.2 ≠ 0) ∧ (0 : Nat) ≠ 503 := by
  refine ⟨?_, by decide, by decide⟩
  rfl

/-- C2 (amended): the probe route writes the code from the fixed mapping
`Unavailable → 503`, `Ready → 204`; every other status (`Broken`,
`Fail`) is missing from the mapping, so the map read yields `0`, Go's
zero value for `int`, not a configured default. -/
theorem httpProbeCode_mapping_spec (hc : HealthCheck)
    (hmap : hc.mapping = defaultMapping) :
    (hc.Get = Unavailable → httpProbeCode hc = 503) ∧
    (hc.Get = Ready → httpProbeCode hc = 204) ∧
    (hc.Get = Broken → httpProbeCode hc = 0) ∧
    (hc.Get = Fail → httpProbeCode hc = 0) := by
  unfold httpProbeCode
  rw [hmap]
  refine ⟨?_, ?_, ?_, ?_⟩ <;> intro h <;> rw [h] <;> decide

/-- C2 witness: the amended mapping theorem applied to a freshly
constructed health check in the `Unavailable` state. -/
theorem httpProbeCode_mapping_spec_witness :
    httpProbeCode (New Unavailable [] none) = 503 :=
  (httpProbeCode_mapping_spec (New Unavailable [] none) rfl).1 (by decide)

/-- C3: a component outside the desired set never influences the
aggregate: runs fed event streams that agree on components and on the
statuses reported by desired components (the statuses of undesired
components may differ arbitrarily) end with the same overall status. -/
theorem undesired_status_never_influences_aggregate (hc : HealthCheck)
    {es1 es2 : List ComponentStatus}
    (h : List.Forall₂
      (fun e1 e2 => e1.comp = e2.comp ∧ (e1.comp ∈ hc.desired → e1.stat = e2.stat))
      es1 es2) :
    (hc.monitor es1).state = (hc.monitor es2).state :=
  monitor_state_agree hc.desired h hc hc rfl rfl rfl (fun _ _ => rfl)

/-- C3 witness: with desired set `[Storage]`, an `Init` event reporting
`Ready` and one reporting `Fail` lead to the same aggregate. -/
theorem undesired_status_never_influences_aggregate_witness :
    ((New Unavailable [Storage] none).monitor [⟨Init, Ready⟩]).state =
    ((New Unavailable [Storage] none).monitor [⟨Init, Fail⟩]).state :=
  undesired_status_never_influences_aggregate (New Unavailable [Storage] none)
    (List.Forall₂.cons (by decide) List.Forall₂.nil)

/-- C4: a desired component with no table entry yet reads as the zero
value `Unavailable`, not `Ready`, so the recomputation sets the overall
status to `Unavailable` whenever some desired component has never
reported. -/
theorem checkComponent_missing_desired_unavailable (hc : HealthCheck) (c : Component)
    (hmem : c ∈ hc.desired) (hnone : tableLookup hc.comstat c = none) :
    hc.checkComponent.state = Unavailable := by
  rw [checkComponent_state]
  have : ¬checkLoop hc.comstat hc.desired = true := by
    intro hl
    have := (checkLoop_eq_true_iff _ _).mp hl c hmem
    rw [hnone] at this
    exact Option.noConfusion this
  rw [if_neg this]

/-- C4 witness: a fresh health check with desired set `[Storage]` and an
empty table recomputes to `Unavailable`. -/
theorem checkComponent_missing_desired_unavailable_witness :
    (New Unavailable [Storage] none).checkComponent.state = Unavailable :=
  checkComponent_missing_desired_unavailable (New Unavailable [Storage] none)
    Storage (by decide) rfl

/-- C5: with an empty desired set the loop is vacuous, so any single
event drives the overall status to `Ready`; before any event is
processed the overall status is the caller-supplied initial value. -/
theorem empty_desired_ready_after_first_event (hc : HealthCheck) (e : ComponentStatus)
    (init : Status) (r : Option (List ComponentStatus))
    (hdes : hc.desired = []) (hinit : int32range init) :
    ((hc.monitor [e]).Get = Ready) ∧ ((New init [] r).monitor []).Get = init := by
  constructor
  · show (hc.processEvent e).state = Ready
    rw [processEvent_state, hdes]
    rfl
  · show (New init [] r).state = init
    exact int32wrap_of_range init hinit

/-- C5 witness: the empty-desired theorem applied at a concrete health
check, event, and initial status. -/
theorem empty_desired_ready_after_first_event_witness :
    ((New Broken [] none).monitor [⟨Storage, Fail⟩]).Get = Ready ∧
    ((New Broken [] none).monitor []).Get = Broken :=
  empty_desired_ready_after_first_event (New Broken [] none) ⟨Storage, Fail⟩
    Broken none rfl (by decide)

/-- C6: invoking the reporter closure when no receptor channel is
configured logs the warning and returns immediately: the health check —
overall status, table, desired set and channel — is unchanged. -/
theorem reporter_noop_without_receptor (hc : HealthCheck) (c : Component) (s : Status)
    (h : hc.receptor = none) :
    (hc.GetStatusReporter c s).hcAfter = hc ∧
    (hc.GetStatusReporter c s).warned = true := by
  unfold HealthCheck.GetStatusReporter
  rw [h]
  exact ⟨rfl, rfl⟩

/-- C6 witness: the no-receptor reporter theorem at a concrete health
check, component, and status. -/
theorem reporter_noop_without_receptor_witness :
    ((New Ready [Storage] none).GetStatusReporter Storage Fail).hcAfter =
      New Ready [Storage] none ∧
    ((New Ready [Storage] none).GetStatusReporter Storage Fail).warned = true :=
  reporter_noop_without_receptor (New Ready [Storage] none) Storage Fail rfl

/-- C7: `Get` after the last of a sequence of `Set` calls returns
exactly the last status value set (any value in the 32-bit range of the
atomic cell, which covers every defined status). -/
theorem get_after_last_set (hc : HealthCheck) (states : List Status) (s : Status)
    (h : int32range s) :
    (runSets hc (states ++ [s])).Get = s := by
  unfold runSets
  rw [List.foldl_append]
  show int32wrap s = s
  exact int32wrap_of_range s h

/-- C7 witness: after `Set Broken` then `Set Fail`, `Get` returns
`Fail`. -/
theorem get_after_last_set_witness :
    (runSets (New Ready [] none) ([Broken] ++ [Fail])).Get = Fail :=
  get_after_last_set (New Ready [] none) [Broken] Fail (by decide)

/-- C8: the recomputation after any event writes only `Ready` or
`Unavailable`; the engine never writes `Broken` or `Fail`. -/
theorem processEvent_state_ready_or_unavailable (hc : HealthCheck) (e : ComponentStatus) :
    ((hc.processEvent e).state = Ready ∨ (hc.processEvent e).state = Unavailable) ∧
    (hc.processEvent e).state ≠ Broken ∧ (hc.processEvent e).state ≠ Fail := by
  rw [processEvent_state]
  by_cases h : checkLoop (tableUpsert hc.comstat e.comp e.stat) hc.desired <;>
    simp [h, Ready, Unavailable, Broken, Fail]

/-- C9: an engine step for event `(c, s)` sets the table entry for `c`
to `s`, leaves the entry of every other component unchanged, and never
removes an entry. -/
theorem processEvent_frame (hc : HealthCheck) (e : ComponentStatus) (c' : Component) :
    tableLookup (hc.processEvent e).comstat e.comp = some e.stat ∧
    (c' ≠ e.comp →
      tableLookup (hc.processEvent e).comstat c' = tableLookup hc.comstat c') ∧
    (tableLookup hc.comstat c' ≠ none →
      tableLookup (hc.processEvent e).comstat c' ≠ none) := by
  rw [processEvent_comstat, tableLookup_tableUpsert, tableLookup_tableUpsert]
  refine ⟨by rw [if_pos rfl], fun hne => by rw [if_neg hne], fun hsome => ?_⟩
  by_cases hce : c' = e.comp
  · rw [if_pos hce]
    exact fun hx => Option.noConfusion hx
  · rw [if_neg hce]
    exact hsome

/-- C9 witness: after an `Init` entry exists, a `Storage` event leaves
the `Init` entry present and unchanged. -/
theorem processEvent_frame_witness :
    tableLookup (((New Unavailable [] none).processEvent
        ⟨Init, Ready⟩).processEvent ⟨Storage, Fail⟩).comstat Init =
      tableLookup ((New Unavailable [] none).processEvent ⟨Init, Ready⟩).comstat Init ∧
    tableLookup (((New Unavailable [] none).processEvent
        ⟨Init, Ready⟩).processEvent ⟨Storage, Fail⟩).comstat Init ≠ none :=
  ⟨(processEvent_frame ((New Unavailable [] none).processEvent ⟨Init, Ready⟩)
      ⟨Storage, Fail⟩ Init).2.1 (by decide),
   (processEvent_frame ((New Unavailable [] none).processEvent ⟨Init, Ready⟩)
      ⟨Storage, Fail⟩ Init).2.2 (by decide)⟩

/-- C10: `Fail` renders as `"unknown"`: only `Unavailable`, `Ready` and
`Broken` have distinct names, every other value — including the defined
member `Fail`, which is distinct from all three — renders as
`"unknown"`, indistinguishable from an out-of-range value. -/
theorem statusString_fail_unknown :
    statusString Fail = "unknown" ∧
    (∀ s : Status, s ≠ Unavailable → s ≠ Ready → s ≠ Broken →
      statusString s = "unknown") ∧
    statusString Unavailable ≠ statusString Ready ∧
    statusString Unavailable ≠ statusString Broken ∧
    statusString Ready ≠ statusString Broken ∧
    Fail ≠ Unavailable ∧ Fail ≠ Ready ∧ Fail ≠ Broken := by
  refine ⟨by decide, ?_, by decide, by decide, by decide, by decide, by decide, by decide⟩
  intro s h1 h2 h3
  simp [statusString, h1, h2, h3]

/-- C10 witness: the out-of-range value `42` also renders as
`"unknown"`, matching `Fail`. -/
theorem statusString_fail_unknown_witness :
    statusString 42 = "unknown" :=
  statusString_fail_unknown.2.1 42 (by decide) (by decide) (by decide)

end Healthcheck
